import Mathlib

/-!
Shallow embedding of the Chef-Fest server's data model, persistence layer
(`server/storage.ts`), validation schemas (`shared/schema.ts`) and request
handlers (the Express route registrations), together with theorems settling
the specification's claims about them.

Conventions of the embedding:
* Database tables are Lean lists of rows; a row is a structure mirroring the
  pgTable column list.  Generated ids (`gen_random_uuid()`) are drawn from a
  counter carried by the database state, and `defaultNow()` timestamps from a
  clock field of the same state.
* TypeScript `number` is modelled as `Rat` where the value flows through the
  zod validation layer (review ratings: zod checks `min(1).max(5)` on an
  arbitrary JSON number), and as `Int`/`Nat` where only integers occur.
* Nullable columns are `Option` fields; JavaScript truthiness tests on
  optional strings (`if (filters.search)`) treat both `undefined` and `""`
  as absent, which `truthy` reproduces.
* SQL `ORDER BY x DESC` is `List.insertionSort` with the "newer or equally
  new" relation; `ilike(col, "%" ++ s ++ "%")` is case-insensitive substring
  containment over the characters of the two strings.
-/

namespace ChefFest

/-- A row of the `users` table (shared/schema.ts, `pgTable "users"`). -/
structure User where
  id : String
  email : Option String := none
  firstName : Option String := none
  lastName : Option String := none
  profileImageUrl : Option String := none
  role : String := "user"
  createdAt : Nat := 0
  updatedAt : Nat := 0
deriving DecidableEq, Repr

/-- A row of the `recipes` table (shared/schema.ts, `pgTable "recipes"`). -/
structure Recipe where
  id : String
  name : String
  description : Option String := none
  ingredients : List String := []
  instructions : List String := []
  cookingTime : Option Int := none
  difficulty : Option String := none
  cuisine : Option String := none
  imageUrl : Option String := none
  userId : Option String := none
  isGenerated : Bool := true
  isFeatured : Bool := false
  isApproved : Bool := true
  servings : Option Int := none
  createdAt : Nat := 0
  updatedAt : Nat := 0
deriving DecidableEq, Repr

/-- A row of the `reviews` table (shared/schema.ts, `pgTable "reviews"`).
The `rating` column is declared `integer`, but the value stored is whatever
number passed the zod layer, so it is modelled as `Rat`. -/
structure Review where
  id : String
  recipeId : String
  userId : String
  rating : Rat
  comment : Option String := none
  isApproved : Bool := true
  createdAt : Nat := 0
  updatedAt : Nat := 0
deriving DecidableEq, Repr

/-- A row of the `saved_recipes` table (shared/schema.ts,
`pgTable "saved_recipes"`): a generated primary key `id`, the two foreign
keys and a timestamp.  No other constraint is declared on the table. -/
structure SavedRecipe where
  id : String
  userId : String
  recipeId : String
  createdAt : Nat := 0
deriving DecidableEq, Repr

/-- The database state: the tables the claims touch, a counter feeding
`gen_random_uuid()` defaults and a clock feeding `defaultNow()` defaults. -/
structure DB where
  users : List User := []
  recipes : List Recipe := []
  reviews : List Review := []
  savedRecipes : List SavedRecipe := []
  nextId : Nat := 0
  now : Nat := 0
deriving DecidableEq, Repr

/-- A fresh generated id (`gen_random_uuid()`), one per counter value. -/
def freshId (n : Nat) : String := "gen-" ++ toString n

/-- `DatabaseStorage.getUser`: first row of `users` with the given id. -/
def getUser (db : DB) (id : String) : Option User :=
  db.users.find? (fun u => u.id == id)

/-- JavaScript truthiness of an optional query-string value: `undefined`
and the empty string are both falsy. -/
def truthy : Option String → Bool
  | some s => !s.isEmpty
  | none => false

/-- `pat` matches at the head of `hay` (character-wise). -/
def charsMatchAt : List Char → List Char → Bool
  | [], _ => true
  | _ :: _, [] => false
  | a :: as, b :: bs => a == b && charsMatchAt as bs

/-- `pat` occurs somewhere inside `hay` (character-wise containment). -/
def charsContain (pat : List Char) : List Char → Bool
  | [] => pat.isEmpty
  | b :: bs => charsMatchAt pat (b :: bs) || charsContain pat bs

/-- SQL `ilike(hay, "%" ++ pat ++ "%")`: case-insensitive containment. -/
def ilikeContains (hay pat : String) : Bool :=
  charsContain (pat.data.map Char.toLower) (hay.data.map Char.toLower)

/-- `ORDER BY reviews.created_at DESC`: the first row is at least as new. -/
def reviewNewerEq (a b : Review) : Prop := b.createdAt ≤ a.createdAt

instance : DecidableRel reviewNewerEq := fun a b => Nat.decLe b.createdAt a.createdAt

instance : IsTotal Review reviewNewerEq := ⟨fun a b => Nat.le_total b.createdAt a.createdAt⟩

instance : IsTrans Review reviewNewerEq := ⟨fun _ _ _ h1 h2 => Nat.le_trans h2 h1⟩

/-- `ORDER BY recipes.created_at DESC`: the first row is at least as new. -/
def recipeNewerEq (a b : Recipe) : Prop := b.createdAt ≤ a.createdAt

instance : DecidableRel recipeNewerEq := fun a b => Nat.decLe b.createdAt a.createdAt

instance : IsTotal Recipe recipeNewerEq := ⟨fun a b => Nat.le_total b.createdAt a.createdAt⟩

instance : IsTrans Recipe recipeNewerEq := ⟨fun _ _ _ h1 h2 => Nat.le_trans h2 h1⟩

/-- The `RecipeWithUser` shape of schema.ts: a recipe row left-joined with
its owning user (the join misses when `userId` is null or dangling). -/
structure RecipeWithUser where
  recipe : Recipe
  user : Option User
deriving DecidableEq, Repr

/-- The `ReviewWithUser` shape: a review row left-joined with its author. -/
structure ReviewWithUser where
  review : Review
  user : Option User
deriving DecidableEq, Repr

/-- The `RecipeWithReviews` shape returned by `DatabaseStorage.getRecipe`. -/
structure RecipeWithReviews where
  recipe : Recipe
  reviews : List ReviewWithUser
  averageRating : Rat
  reviewCount : Nat
deriving DecidableEq, Repr

/-- The WHERE clause shared by the three review queries of
`DatabaseStorage.getRecipe`: reviews of the recipe that are approved. -/
def approvedReviewsFor (db : DB) (id : String) : List Review :=
  db.reviews.filter (fun v => v.recipeId == id && v.isApproved)

/-- The left join of a recipe with its owning user. -/
def joinOwner (db : DB) (r : Recipe) : RecipeWithUser :=
  { recipe := r
    user := match r.userId with
      | some u => getUser db u
      | none => none }

/-- `DatabaseStorage.getRecipe` (storage.ts): select the recipe row by id
(`undefined` when absent), select its approved reviews joined with their
users ordered newest first, then the SQL `avg` of the approved ratings
(`null` over zero rows, mapped to `0` by `avgRating ? Number(avgRating) : 0`)
and the SQL `count` of the approved reviews.  The `isApproved` flag of the
recipe itself is never consulted. -/
def getRecipe (db : DB) (id : String) : Option RecipeWithReviews :=
  match db.recipes.find? (fun r => r.id == id) with
  | none => none
  | some recipe =>
    let sortedReviews := List.insertionSort reviewNewerEq (approvedReviewsFor db id)
    let ratings := (approvedReviewsFor db id).map (fun v => v.rating)
    some
      { recipe := recipe
        reviews := sortedReviews.map (fun v => ⟨v, getUser db v.userId⟩)
        averageRating := if ratings.isEmpty then 0 else ratings.sum / (ratings.length : Rat)
        reviewCount := ratings.length }

/-- The optional query filters of `GET /api/recipes`, as the route passes
them to `DatabaseStorage.getRecipes`. -/
structure RecipeFilters where
  userId : Option String := none
  cuisine : Option String := none
  difficulty : Option String := none
  search : Option String := none
deriving DecidableEq, Repr

/-- Drizzle's select-builder `.where(c)`: the call stores `c` in the
builder's configuration, replacing whatever condition an earlier `.where`
call stored there; conditions combine only through the `and()` / `or()`
combinators, never by calling `.where` twice. -/
def whereSet (_old : Recipe → Bool) (c : Recipe → Bool) : Recipe → Bool := c

/-- The WHERE condition `DatabaseStorage.getRecipes` ends up with after its
chain of conditional `.where` calls: it starts from
`.where(eq(recipes.isApproved, true))` and then, for each supplied (truthy)
filter, calls `.where` again with that filter's condition alone. -/
def getRecipesWhere (filters : RecipeFilters) : Recipe → Bool :=
  let w : Recipe → Bool := fun r => r.isApproved
  let w := if truthy filters.userId then
      whereSet w (fun r => r.userId == filters.userId) else w
  let w := if truthy filters.cuisine then
      whereSet w (fun r => r.cuisine == filters.cuisine) else w
  let w := if truthy filters.difficulty then
      whereSet w (fun r => r.difficulty == filters.difficulty) else w
  let w := if truthy filters.search then
      whereSet w (fun r =>
        ilikeContains r.name (filters.search.getD "") ||
        (match r.description with
         | some d => ilikeContains d (filters.search.getD "")
         | none => false)) else w
  w

/-- `DatabaseStorage.getRecipes` (storage.ts): the filtered rows, ordered
newest first, with OFFSET and LIMIT applied, each left-joined with its
owning user. -/
def getRecipes (db : DB) (limit : Nat := 20) (offset : Nat := 0)
    (filters : RecipeFilters := {}) : List RecipeWithUser :=
  let rows := db.recipes.filter (getRecipesWhere filters)
  (((List.insertionSort recipeNewerEq rows).drop offset).take limit).map (joinOwner db)

/-- `DatabaseStorage.getFeaturedRecipes`: featured AND approved, newest
first, at most 10, joined with the owner. -/
def getFeaturedRecipes (db : DB) : List RecipeWithUser :=
  let rows := db.recipes.filter (fun r => r.isFeatured && r.isApproved)
  ((List.insertionSort recipeNewerEq rows).take 10).map (joinOwner db)

/-- The `insertRecipeSchema` payload (`createInsertSchema(recipes)` minus
id and timestamps): columns with defaults stay optional. -/
structure InsertRecipe where
  name : String
  description : Option String := none
  ingredients : List String := []
  instructions : List String := []
  cookingTime : Option Int := none
  difficulty : Option String := none
  cuisine : Option String := none
  imageUrl : Option String := none
  userId : Option String := none
  isGenerated : Option Bool := none
  isFeatured : Option Bool := none
  isApproved : Option Bool := none
  servings : Option Int := none
deriving DecidableEq, Repr

/-- `DatabaseStorage.createRecipe`: insert with column defaults for the
omitted values and return the new row. -/
def createRecipe (db : DB) (ins : InsertRecipe) : Recipe × DB :=
  let r : Recipe :=
    { id := freshId db.nextId
      name := ins.name
      description := ins.description
      ingredients := ins.ingredients
      instructions := ins.instructions
      cookingTime := ins.cookingTime
      difficulty := ins.difficulty
      cuisine := ins.cuisine
      imageUrl := ins.imageUrl
      userId := ins.userId
      isGenerated := ins.isGenerated.getD true
      isFeatured := ins.isFeatured.getD false
      isApproved := ins.isApproved.getD true
      servings := ins.servings
      createdAt := db.now
      updatedAt := db.now }
  (r, { db with recipes := db.recipes ++ [r], nextId := db.nextId + 1 })

/-- `DatabaseStorage.deleteRecipe`: hard delete by id; the foreign keys of
`reviews` and `saved_recipes` cascade.  `rowCount > 0` is the Boolean. -/
def deleteRecipe (db : DB) (id : String) : Bool × DB :=
  let rest := db.recipes.filter (fun r => !(r.id == id))
  (rest.length < db.recipes.length,
   { db with
       recipes := rest
       reviews := db.reviews.filter (fun v => !(v.recipeId == id))
       savedRecipes := db.savedRecipes.filter (fun s => !(s.recipeId == id)) })

/-- The `insertReviewSchema` payload shape after parsing. -/
structure InsertReview where
  recipeId : String
  userId : String
  rating : Rat
  comment : Option String := none
  isApproved : Option Bool := none
deriving DecidableEq, Repr

/-- `DatabaseStorage.createReview`: plain insert returning the new row. -/
def createReview (db : DB) (ins : InsertReview) : Review × DB :=
  let v : Review :=
    { id := freshId db.nextId
      recipeId := ins.recipeId
      userId := ins.userId
      rating := ins.rating
      comment := ins.comment
      isApproved := ins.isApproved.getD true
      createdAt := db.now
      updatedAt := db.now }
  (v, { db with reviews := db.reviews ++ [v], nextId := db.nextId + 1 })

/-- The partial-update payload `insertReviewSchema.partial()` produces:
every field of the insert schema, each optional.  `comment` distinguishes
"absent" from "present and null". -/
structure ReviewUpdates where
  recipeId : Option String := none
  userId : Option String := none
  rating : Option Rat := none
  comment : Option (Option String) := none
  isApproved : Option Bool := none
deriving DecidableEq, Repr

/-- The SET clause of `DatabaseStorage.updateReview` applied to one row. -/
def applyReviewUpdates (db : DB) (u : ReviewUpdates) (v : Review) : Review :=
  { v with
      recipeId := u.recipeId.getD v.recipeId
      userId := u.userId.getD v.userId
      rating := u.rating.getD v.rating
      comment := match u.comment with
        | some c => c
        | none => v.comment
      isApproved := u.isApproved.getD v.isApproved
      updatedAt := db.now }

/-- `DatabaseStorage.updateReview`: UPDATE scoped by
`and(eq(reviews.id, id), eq(reviews.userId, userId))`, returning the updated
row (`undefined` when no row matched). -/
def updateReview (db : DB) (id userId : String) (u : ReviewUpdates) :
    Option Review × DB :=
  let hit := fun (v : Review) => v.id == id && v.userId == userId
  let updatedRows := (db.reviews.filter hit).map (applyReviewUpdates db u)
  (updatedRows.head?,
   { db with reviews := db.reviews.map (fun v => if hit v then applyReviewUpdates db u v else v) })

/-- `DatabaseStorage.deleteReview`: DELETE scoped by
`and(eq(reviews.id, id), eq(reviews.userId, userId))`; `rowCount > 0`. -/
def deleteReview (db : DB) (id userId : String) : Bool × DB :=
  let rest := db.reviews.filter (fun v => !(v.id == id && v.userId == userId))
  (rest.length < db.reviews.length, { db with reviews := rest })

/-- The `insertSavedRecipeSchema` payload. -/
structure InsertSavedRecipe where
  userId : String
  recipeId : String
deriving DecidableEq, Repr

/-- The unique constraints declared on `saved_recipes` (shared/schema.ts):
only the primary key `id`.  No unique index covers (userId, recipeId), so a
conflict can only arise on `id`. -/
def savedRecipeConflicts (tbl : List SavedRecipe) (row : SavedRecipe) : Bool :=
  tbl.any (fun s => s.id == row.id)

/-- `DatabaseStorage.saveRecipe`: INSERT with `onConflictDoNothing()`; when
the insert conflicts with a declared unique constraint nothing is inserted
and `.returning()` yields no row. -/
def saveRecipe (db : DB) (ins : InsertSavedRecipe) : Option SavedRecipe × DB :=
  let row : SavedRecipe :=
    { id := freshId db.nextId
      userId := ins.userId
      recipeId := ins.recipeId
      createdAt := db.now }
  if savedRecipeConflicts db.savedRecipes row then
    (none, { db with nextId := db.nextId + 1 })
  else
    (some row, { db with savedRecipes := db.savedRecipes ++ [row], nextId := db.nextId + 1 })

/-! ### Validation layer (shared/schema.ts zod schemas) -/

/-- The rating rule of `insertReviewSchema`:
`rating: z.number().min(1).max(5)`.  The `.extend` overrides the column-derived
field, and attaches no integrality check. -/
def ratingValid (q : Rat) : Bool := decide (1 ≤ q) && decide (q ≤ 5)

/-- A JSON body as `POST /api/recipes/:id/reviews` or `PUT /api/reviews/:id`
receives it, restricted to the fields `insertReviewSchema` knows.  A field
that is absent from the JSON is `none`; `comment` distinguishes a present
null from an absent field. -/
structure ReviewBody where
  recipeId : Option String := none
  userId : Option String := none
  rating : Option Rat := none
  comment : Option (Option String) := none
  isApproved : Option Bool := none
deriving DecidableEq, Repr

/-- The field paths `insertReviewSchema.parse` reports on failure: the two
required string columns when missing, and `rating` when missing or out of
the 1..5 range. -/
def insertReviewErrors (b : ReviewBody) : List String :=
  (match b.recipeId with
   | none => ["recipeId"]
   | some _ => []) ++
  (match b.userId with
   | none => ["userId"]
   | some _ => []) ++
  (match b.rating with
   | none => ["rating"]
   | some q => if ratingValid q then [] else ["rating"])

/-- `insertReviewSchema.parse`: the typed payload, or the field errors. -/
def parseInsertReview (b : ReviewBody) : Except (List String) InsertReview :=
  match b.recipeId, b.userId, b.rating with
  | some rid, some uid, some q =>
    if ratingValid q then
      .ok { recipeId := rid
            userId := uid
            rating := q
            comment := b.comment.getD none
            isApproved := b.isApproved }
    else .error (insertReviewErrors b)
  | _, _, _ => .error (insertReviewErrors b)

/-- The field paths `insertReviewSchema.partial().parse` reports: every
field is optional, but a present rating must still be in range. -/
def updateReviewErrors (b : ReviewBody) : List String :=
  match b.rating with
  | none => []
  | some q => if ratingValid q then [] else ["rating"]

/-- `insertReviewSchema.partial().parse`: the partial payload or the
field errors. -/
def parseReviewUpdates (b : ReviewBody) : Except (List String) ReviewUpdates :=
  match b.rating with
  | none =>
    .ok { recipeId := b.recipeId
          userId := b.userId
          rating := none
          comment := b.comment
          isApproved := b.isApproved }
  | some q =>
    if ratingValid q then
      .ok { recipeId := b.recipeId
            userId := b.userId
            rating := some q
            comment := b.comment
            isApproved := b.isApproved }
    else .error (updateReviewErrors b)

/-! ### AI generation adapter (server/services/openai.ts) -/

/-- A recipe object as `generateRecipesFromIngredients` parses it out of
the model response (the `GeneratedRecipe` interface). -/
structure GeneratedRecipe where
  name : String
  description : String
  ingredients : List String := []
  instructions : List String := []
  cookingTime : Int := 0
  difficulty : String := "easy"
  cuisine : String := ""
  servings : Int := 1
deriving DecidableEq, Repr

/-- The outcome of one call to the external image API: an error, or a
response whose first image may or may not carry a url. -/
def ImageCallResult : Type := Except String (Option String)

/-- `OpenAIService.generateRecipeImage`: the whole body is wrapped in
`try/catch`; any failure of the external call is swallowed and the function
returns `""`, and a response without a url is mapped to `""` as well
(`response.data[0].url || ""`).  It never propagates an error. -/
def generateRecipeImage : Except String (Option String) → String
  | .error _ => ""
  | .ok none => ""
  | .ok (some url) => url

/-! ### Request router (the Express route registrations) -/

/-- What the `isAdmin` middleware decides for a request. -/
inductive AdminGate where
  | unauthorized
  | forbidden
  | proceed
deriving DecidableEq, Repr

/-- The caller identity carried by the request: `req.user?.claims?.sub`,
resolved when present and truthy (the empty string is falsy). -/
def resolvedIdentity : Option String → Bool
  | some s => !s.isEmpty
  | none => false

/-- The `isAdmin` middleware: 401 Unauthorized when `req.user?.claims?.sub`
is falsy, 403 "Admin access required" when the stored user is missing or its
role differs from "admin", `next()` otherwise. -/
def isAdminGate (db : DB) (claimsSub : Option String) : AdminGate :=
  match claimsSub with
  | none => .unauthorized
  | some sub =>
    if sub.isEmpty then .unauthorized
    else
      match getUser db sub with
      | none => .forbidden
      | some u => if u.role == "admin" then .proceed else .forbidden

/-- `DELETE /api/recipes/:id`: 404 when the recipe is missing, 403 when the
caller is neither the recipe's owner nor an admin
(`recipe.userId !== req.user.claims.sub && user?.role !== "admin"`),
otherwise the delete runs (404 again if it removed nothing, else 200).
The pair is the HTTP status and the database afterwards. -/
def deleteRecipeRoute (db : DB) (callerSub : String) (id : String) : Nat × DB :=
  match getRecipe db id with
  | none => (404, db)
  | some rw =>
    let isOwner := rw.recipe.userId == some callerSub
    let isAdminUser := match getUser db callerSub with
      | some u => u.role == "admin"
      | none => false
    if !isOwner && !isAdminUser then (403, db)
    else
      let (deleted, db') := deleteRecipe db id
      if deleted then (200, db') else (404, db')

/-- The body merge of `POST /api/recipes/:id/reviews`:
`{ ...req.body, recipeId: req.params.id, userId: req.user.claims.sub }` —
the spread comes first, so the path id and the session subject overwrite
whatever the body supplied for those two fields. -/
def mergeReviewBody (body : ReviewBody) (pathId sub : String) : ReviewBody :=
  { body with recipeId := some pathId, userId := some sub }

/-- The outcome of `POST /api/recipes/:id/reviews`: the created review, or
400 with the zod field errors. -/
inductive ReviewCreateOutcome where
  | created (review : Review)
  | invalid (errors : List String)
deriving DecidableEq, Repr

/-- `POST /api/recipes/:id/reviews`: parse the merged body against
`insertReviewSchema`, then insert. -/
def createReviewRoute (db : DB) (callerSub : String) (pathId : String)
    (body : ReviewBody) : ReviewCreateOutcome × DB :=
  match parseInsertReview (mergeReviewBody body pathId callerSub) with
  | .error es => (.invalid es, db)
  | .ok ins =>
    let (v, db') := createReview db ins
    (.created v, db')

/-- `PUT /api/reviews/:id`: 400 on validation failure, else the update
scoped to (review id, caller id); 404 "Review not found or not authorized"
when no row matched, 200 otherwise. -/
def updateReviewRoute (db : DB) (callerSub : String) (id : String)
    (body : ReviewBody) : Nat × DB :=
  match parseReviewUpdates body with
  | .error _ => (400, db)
  | .ok u =>
    match updateReview db id callerSub u with
    | (none, db') => (404, db')
    | (some _, db') => (200, db')

/-- `DELETE /api/reviews/:id`: the delete scoped to (review id, caller id);
404 "Review not found or not authorized" when it removed nothing. -/
def deleteReviewRoute (db : DB) (callerSub : String) (id : String) : Nat × DB :=
  let (deleted, db') := deleteReview db id callerSub
  if deleted then (200, db') else (404, db')

/-- The insert payload the generate-from-ingredients loop builds for one
candidate: the generated fields, the image reference, and the session
subject as owner. -/
def insertOfGenerated (g : GeneratedRecipe) (imageUrl : Option String)
    (sub : String) : InsertRecipe :=
  { name := g.name
    description := some g.description
    ingredients := g.ingredients
    instructions := g.instructions
    cookingTime := some g.cookingTime
    difficulty := some g.difficulty
    cuisine := some g.cuisine
    imageUrl := imageUrl
    userId := some sub
    servings := some g.servings }

/-- The per-candidate loop of `POST /api/recipes/generate-from-ingredients`:
for the i-th candidate it calls `generateRecipeImage` (whose outcome is
`imageCall i`) and persists the candidate with the resulting reference.
`generateRecipeImage` never throws, so the catch branch (persist without an
image when saving itself failed) is unreachable and every candidate is
persisted by the try branch. -/
def generateFromIngredientsLoop (sub : String)
    (imageCall : Nat → Except String (Option String)) :
    List GeneratedRecipe → Nat → DB → List Recipe × DB
  | [], _, db => ([], db)
  | g :: rest, i, db =>
    let imageUrl := generateRecipeImage (imageCall i)
    let step := createRecipe db (insertOfGenerated g (some imageUrl) sub)
    let next := generateFromIngredientsLoop sub imageCall rest (i + 1) step.2
    (step.1 :: next.1, next.2)

/-! ### Concrete states used by the claim theorems -/

/-- An unapproved Italian recipe, the only row of `c1Db`. -/
def c1Recipe : Recipe :=
  { id := "r1", name := "Carbonara", cuisine := some "italian", isApproved := false }

/-- A database whose single recipe is unapproved. -/
def c1Db : DB := { recipes := [c1Recipe] }

/-- An approved French recipe whose name contains "Pasta". -/
def c2Recipe : Recipe :=
  { id := "r2", name := "Pasta Bake", cuisine := some "french", isApproved := true }

/-- A database whose single recipe is approved but not Italian. -/
def c2Db : DB := { recipes := [c2Recipe] }

/-- The state after saving the pair (u1, r1) twice into an empty
`saved_recipes` table. -/
def c3DbAfter : DB :=
  (saveRecipe (saveRecipe {} { userId := "u1", recipeId := "r1" }).2
    { userId := "u1", recipeId := "r1" }).2

/-! ### C1 -/

/-- C1: the claim says every recipe a list query returns has
`isApproved = true`.  Evaluated on `c1Db` with the single filter
`cuisine=italian`, `getRecipes` returns the unapproved recipe `r1`: the
`.where(eq(recipes.cuisine, ...))` call replaced the
`.where(eq(recipes.isApproved, true))` condition, so the approval
restriction is lost as soon as any filter is supplied. -/
theorem getRecipes_filtered_returns_unapproved :
    (getRecipes c1Db 20 0 { cuisine := some "italian" }).map
        (fun rw => (rw.recipe.id, rw.recipe.isApproved)) = [("r1", false)] ∧
      c1Recipe.isApproved = false := by
  constructor <;> decide

/-! ### C2 -/

/-- C2: the claim says the filters combine conjunctively.  Evaluated on
`c2Db` with `cuisine=italian&search=pasta`, `getRecipes` returns `r2`, whose
cuisine is "french": the `.where` call for `search` replaced the `.where`
call for `cuisine`, so only the last supplied filter is applied. -/
theorem getRecipes_filters_not_conjunctive :
    (getRecipes c2Db 20 0 { cuisine := some "italian", search := some "pasta" }).map
        (fun rw => rw.recipe.id) = ["r2"] ∧
      c2Recipe.cuisine ≠ some "italian" := by
  constructor <;> decide

/-! ### C3 -/

/-- C3: the claim says saving the same (user, recipe) pair twice leaves
exactly one saved-recipe row.  Starting from an empty table, two
`saveRecipe` calls for (u1, r1) leave two rows for that pair: each insert
gets a fresh generated primary key and `saved_recipes` declares no unique
constraint on (userId, recipeId), so `onConflictDoNothing()` never fires. -/
theorem saveRecipe_twice_inserts_two_rows :
    (c3DbAfter.savedRecipes.filter
        (fun s => s.userId == "u1" && s.recipeId == "r1")).length = 2 := by
  decide

/-! ### C4 -/

/-- C4 counterexample: the claim says a rating is accepted iff it is an
integer between 1 and 5.  The body with rating 3/2 passes
`insertReviewSchema.parse` (the `.extend` rule is `z.number().min(1).max(5)`
with no `.int()`), yet 3/2 equals no integer. -/
theorem reviewValidation_accepts_noninteger_rating :
    (parseInsertReview
        { recipeId := some "r1", userId := some "u1", rating := some (3/2) }).isOk = true ∧
      (∀ n : ℤ, ((n : ℚ) ≠ (3/2 : ℚ))) := by
  constructor
  · have h1 : ratingValid (3/2) = true := by
      unfold ratingValid
      rw [Bool.and_eq_true, decide_eq_true_iff, decide_eq_true_iff]
      constructor <;> norm_num
    simp [parseInsertReview, h1, Except.isOk, Except.toBool]
  · intro n h
    have h1 : (1 : ℚ) < (n : ℚ) := by rw [h]; norm_num
    have h2 : (n : ℚ) < 2 := by rw [h]; norm_num
    have h1i : (1 : ℤ) < n := by exact_mod_cast h1
    have h2i : n < 2 := by exact_mod_cast h2
    omega

/-- C4 (amended): review validation, on create and on partial update,
accepts a supplied rating iff 1 ≤ rating ≤ 5 — integrality is not checked —
and a rating outside that range yields a validation error listing the
`rating` field. -/
theorem reviewRating_range_validation (b : ReviewBody) (q : Rat) (rid uid : String) :
    (ratingValid q = true ↔ (1 ≤ q ∧ q ≤ 5)) ∧
      ("rating" ∈ insertReviewErrors { b with rating := some q } ↔ ¬(1 ≤ q ∧ q ≤ 5)) ∧
      ("rating" ∈ updateReviewErrors { b with rating := some q } ↔ ¬(1 ≤ q ∧ q ≤ 5)) ∧
      ((parseInsertReview
          { b with recipeId := some rid, userId := some uid, rating := some q }).isOk = true
        ↔ (1 ≤ q ∧ q ≤ 5)) ∧
      ((parseReviewUpdates { b with rating := some q }).isOk = true ↔ (1 ≤ q ∧ q ≤ 5)) := by
  have hv : ratingValid q = true ↔ (1 ≤ q ∧ q ≤ 5) := by
    unfold ratingValid
    rw [Bool.and_eq_true, decide_eq_true_iff, decide_eq_true_iff]
  by_cases hq : ratingValid q = true
  · have hr : 1 ≤ q ∧ q ≤ 5 := hv.mp hq
    obtain ⟨brid, buid, brat, bcom, bapp⟩ := b
    refine ⟨hv, ?_, ?_, ?_, ?_⟩ <;>
      cases brid <;> cases buid <;>
        simp [insertReviewErrors, updateReviewErrors, parseInsertReview,
          parseReviewUpdates, Except.isOk, Except.toBool, hq, hr]
  · have hqf : ratingValid q = false := by simpa using hq
    have hr : ¬(1 ≤ q ∧ q ≤ 5) := fun h => hq (hv.mpr h)
    obtain ⟨brid, buid, brat, bcom, bapp⟩ := b
    refine ⟨hv, ?_, ?_, ?_, ?_⟩ <;>
      cases brid <;> cases buid <;>
        simp [insertReviewErrors, updateReviewErrors, parseInsertReview,
          parseReviewUpdates, Except.isOk, Except.toBool, hqf, hr]

/-- C4 witness: ratings 0 and 6 are rejected with the `rating` field listed,
ratings 1 and 5 are accepted — instances of `reviewRating_range_validation`. -/
theorem reviewRating_range_validation_witness :
    ("rating" ∈ insertReviewErrors
        { recipeId := some "r1", userId := some "u1", rating := some 0 }) ∧
      ("rating" ∈ insertReviewErrors
        { recipeId := some "r1", userId := some "u1", rating := some 6 }) ∧
      (parseInsertReview
        { recipeId := some "r1", userId := some "u1", rating := some 1 }).isOk = true ∧
      (parseInsertReview
        { recipeId := some "r1", userId := some "u1", rating := some 5 }).isOk = true := by
  refine ⟨?_, ?_, ?_, ?_⟩
  · exact ((reviewRating_range_validation
      { recipeId := some "r1", userId := some "u1" } 0 "r1" "u1").2.1).mpr (by norm_num)
  · exact ((reviewRating_range_validation
      { recipeId := some "r1", userId := some "u1" } 6 "r1" "u1").2.1).mpr (by norm_num)
  · exact ((reviewRating_range_validation
      { recipeId := some "r1", userId := some "u1" } 1 "r1" "u1").2.2.2.1).mpr (by norm_num)
  · exact ((reviewRating_range_validation
      { recipeId := some "r1", userId := some "u1" } 5 "r1" "u1").2.2.2.1).mpr (by norm_num)

/-! ### C5 -/

/-- Filtering keeps the whole list when the predicate fails nowhere. -/
theorem filterKeepsAll {α : Type} (p : α → Bool) (l : List α)
    (h : ∀ a ∈ l, p a = true) : l.filter p = l := by
  induction l with
  | nil => rfl
  | cons x xs ih =>
    have hx := h x (List.mem_cons_self x xs)
    simp [List.filter_cons, hx, ih (fun a ha => h a (List.mem_cons_of_mem x ha))]

/-- Filtering drops everything when the predicate holds nowhere. -/
theorem filterDropsAll {α : Type} (p : α → Bool) (l : List α)
    (h : ∀ a ∈ l, p a = false) : l.filter p = [] := by
  induction l with
  | nil => rfl
  | cons x xs ih =>
    have hx := h x (List.mem_cons_self x xs)
    simp [List.filter_cons, hx, ih (fun a ha => h a (List.mem_cons_of_mem x ha))]

/-- A conditional rewrite misses every row when its guard holds nowhere. -/
theorem mapIteId {α : Type} (p : α → Bool) (f : α → α) (l : List α)
    (h : ∀ a ∈ l, p a = false) : l.map (fun a => if p a then f a else a) = l := by
  induction l with
  | nil => rfl
  | cons x xs ih =>
    have hx := h x (List.mem_cons_self x xs)
    simp [hx, ih (fun a ha => h a (List.mem_cons_of_mem x ha))]

/-- A review owned by alice, in a database that also holds the caller bob. -/
def c5Review : Review :=
  { id := "v1", recipeId := "r1", userId := "alice", rating := 4 }

/-- Users alice (owner) and bob (plain user), alice's recipe and review. -/
def c5Db : DB :=
  { users := [{ id := "alice" }, { id := "bob" }]
    recipes := [{ id := "r1", name := "Minestrone", userId := some "alice" }]
    reviews := [c5Review] }

/-- C5 counterexample: the claim says a non-owner, non-admin update attempt
on a review is rejected with a forbidden response.  bob (role "user") tries
to update alice's review: the scoped UPDATE matches no row and the handler
answers 404 "Review not found or not authorized" — a not-found response,
not a forbidden one — though the review is indeed unchanged. -/
theorem updateReview_nonowner_404_not_forbidden :
    (updateReviewRoute c5Db "bob" "v1" { rating := some 2 }).1 = 404 ∧
      (404 : Nat) ≠ 403 ∧
      (updateReviewRoute c5Db "bob" "v1" { rating := some 2 }).2 = c5Db := by
  refine ⟨by decide, by decide, by decide⟩

/-- C5 (amended): a non-owner, non-admin caller cannot change or remove
another user's resource.  For recipes the delete handler answers 403
Forbidden and the database is unchanged; for reviews the update and delete
are scoped to (id, caller), so they touch no row and the handler answers
404 (not a forbidden response, and admins get it too) with the database
unchanged. -/
theorem nonowner_mutations_rejected (db : DB) (caller recId revId : String)
    (body : ReviewBody)
    (hrecipe : ∀ r ∈ db.recipes, r.id = recId → r.userId ≠ some caller)
    (hrole : ∀ u, getUser db caller = some u → u.role ≠ "admin")
    (hreview : ∀ v ∈ db.reviews, v.id = revId → v.userId ≠ caller) :
    ((getRecipe db recId).isSome = true → deleteRecipeRoute db caller recId = (403, db)) ∧
      ((updateReviewRoute db caller revId body).2 = db ∧
        ((parseReviewUpdates body).isOk = true →
          (updateReviewRoute db caller revId body).1 = 404)) ∧
      deleteReviewRoute db caller revId = (404, db) := by
  have hnomatch : ∀ v ∈ db.reviews, (v.id == revId && v.userId == caller) = false := by
    intro v hv
    by_cases hid : v.id = revId
    · have := hreview v hv hid
      simp [hid, this]
    · simp [hid]
  refine ⟨?_, ?_, ?_⟩
  · intro hsome
    obtain ⟨rw, hrw⟩ := Option.isSome_iff_exists.mp hsome
    unfold deleteRecipeRoute
    rw [hrw]
    unfold getRecipe at hrw
    cases hfind : db.recipes.find? (fun r => r.id == recId) with
    | none => rw [hfind] at hrw; exact absurd hrw (by simp)
    | some r =>
      rw [hfind] at hrw
      have hmem := List.mem_of_find?_eq_some hfind
      have hid : r.id = recId := by
        have := List.find?_some hfind
        simpa using this
      have howner : r.userId ≠ some caller := hrecipe r hmem hid
      have hrec : rw.recipe = r := by
        cases hrw.symm
        rfl
      have howner' : (rw.recipe.userId == some caller) = false := by
        rw [hrec]
        exact beq_eq_false_iff_ne.mpr howner
      have hadm : (match getUser db caller with
          | some u => u.role == "admin"
          | none => false) = false := by
        cases hu : getUser db caller with
        | none => rfl
        | some u =>
          have := hrole u hu
          simpa using this
      simp [howner', hadm]
  · cases hparse : parseReviewUpdates body with
    | error es =>
      constructor
      · simp [updateReviewRoute, hparse]
      · intro hok
        exact absurd hok (by simp [Except.isOk, Except.toBool])
    | ok u =>
      have hdb : (updateReview db revId caller u).2 = db := by
        unfold updateReview
        simp only
        rw [mapIteId _ _ _ hnomatch]
      have hnone : (updateReview db revId caller u).1 = none := by
        unfold updateReview
        simp only
        rw [filterDropsAll _ _ hnomatch]
        rfl
      have hpair : updateReview db revId caller u = (none, db) := by
        calc updateReview db revId caller u
            = ((updateReview db revId caller u).1, (updateReview db revId caller u).2) := rfl
          _ = (none, db) := by rw [hdb, hnone]
      constructor
      · simp [updateReviewRoute, hparse, hpair]
      · intro _
        simp [updateReviewRoute, hparse, hpair]
  · have hkeep : ∀ v ∈ db.reviews, (!(v.id == revId && v.userId == caller)) = true := by
      intro v hv
      simp [hnomatch v hv]
    unfold deleteReviewRoute deleteReview
    simp only
    rw [filterKeepsAll _ _ hkeep]
    simp

/-- C5 witness: `nonowner_mutations_rejected` at the concrete state `c5Db`
with caller bob: recipe delete answers 403, review update and delete answer
404, and the database is unchanged each time. -/
theorem nonowner_mutations_rejected_witness :
    deleteRecipeRoute c5Db "bob" "r1" = (403, c5Db) ∧
      (updateReviewRoute c5Db "bob" "v1" { rating := some 2 }).1 = 404 ∧
      (updateReviewRoute c5Db "bob" "v1" { rating := some 2 }).2 = c5Db ∧
      deleteReviewRoute c5Db "bob" "v1" = (404, c5Db) := by
  have h := nonowner_mutations_rejected c5Db "bob" "r1" "v1" { rating := some 2 }
    (by decide)
    (by
      intro u hu
      have h2 : getUser c5Db "bob" = some ({ id := "bob" } : User) := by decide
      rw [h2] at hu
      have hu' : u = ({ id := "bob" } : User) := (Option.some.inj hu).symm
      subst hu'
      decide)
    (by decide)
  exact ⟨h.1 (by decide), h.2.1.2 (by decide), h.2.1.1, h.2.2⟩

/-! ### C6 -/

/-- C6: the single-recipe fetch returns none exactly when the id resolves to
no row; otherwise the result carries the recipe's approved reviews ordered
newest-first (a sorted permutation of the approved reviews), a count over
the approved reviews only, and an average rating that is 0 with no approved
review and the arithmetic mean of the approved ratings otherwise. -/
theorem getRecipe_review_aggregates (db : DB) (id : String) :
    (db.recipes.find? (fun r => r.id == id) = none → getRecipe db id = none) ∧
      (∀ out, getRecipe db id = some out →
        List.Sorted reviewNewerEq (out.reviews.map (fun vw => vw.review)) ∧
          List.Perm (out.reviews.map (fun vw => vw.review)) (approvedReviewsFor db id) ∧
          out.reviewCount = (approvedReviewsFor db id).length ∧
          (approvedReviewsFor db id = [] → out.averageRating = 0) ∧
          (approvedReviewsFor db id ≠ [] →
            out.averageRating =
              ((approvedReviewsFor db id).map (fun v => v.rating)).sum /
                ((approvedReviewsFor db id).length : Rat))) := by
  constructor
  · intro hnone
    unfold getRecipe
    rw [hnone]
  · intro out hout
    unfold getRecipe at hout
    cases hfind : db.recipes.find? (fun r => r.id == id) with
    | none =>
      rw [hfind] at hout
      exact absurd hout (by simp)
    | some r =>
      rw [hfind] at hout
      have hrec := Option.some.inj hout
      subst hrec
      have hmm :
          ((List.insertionSort reviewNewerEq (approvedReviewsFor db id)).map
              (fun v => (⟨v, getUser db v.userId⟩ : ReviewWithUser))).map
                (fun vw => vw.review)
            = List.insertionSort reviewNewerEq (approvedReviewsFor db id) := by
        rw [List.map_map]
        exact List.map_id _
      refine ⟨?_, ?_, ?_, ?_, ?_⟩
      · show List.Sorted reviewNewerEq
          (((List.insertionSort reviewNewerEq (approvedReviewsFor db id)).map
            (fun v => (⟨v, getUser db v.userId⟩ : ReviewWithUser))).map (fun vw => vw.review))
        rw [hmm]
        exact List.sorted_insertionSort reviewNewerEq (approvedReviewsFor db id)
      · show List.Perm
          (((List.insertionSort reviewNewerEq (approvedReviewsFor db id)).map
            (fun v => (⟨v, getUser db v.userId⟩ : ReviewWithUser))).map (fun vw => vw.review))
          (approvedReviewsFor db id)
        rw [hmm]
        exact List.perm_insertionSort reviewNewerEq (approvedReviewsFor db id)
      · show ((approvedReviewsFor db id).map (fun v => v.rating)).length
          = (approvedReviewsFor db id).length
        simp
      · intro hnil
        show (if ((approvedReviewsFor db id).map (fun v => v.rating)).isEmpty then 0
          else ((approvedReviewsFor db id).map (fun v => v.rating)).sum /
            ((((approvedReviewsFor db id).map (fun v => v.rating)).length : Nat) : Rat)) = 0
        simp [hnil]
      · intro hne
        show (if ((approvedReviewsFor db id).map (fun v => v.rating)).isEmpty then 0
          else ((approvedReviewsFor db id).map (fun v => v.rating)).sum /
            ((((approvedReviewsFor db id).map (fun v => v.rating)).length : Nat) : Rat))
          = ((approvedReviewsFor db id).map (fun v => v.rating)).sum /
            (((approvedReviewsFor db id).length : Nat) : Rat)
        cases hl : approvedReviewsFor db id with
        | nil => exact absurd hl hne
        | cons a l => simp [hl]

/-- A recipe with two approved reviews rated 3 and 5, the spec's example. -/
def c6Db : DB :=
  { recipes := [{ id := "r1", name := "Lasagna" }]
    reviews :=
      [ { id := "v1", recipeId := "r1", userId := "u1", rating := 3, createdAt := 1 },
        { id := "v2", recipeId := "r1", userId := "u2", rating := 5, createdAt := 2 } ] }

/-- C6 witness: `getRecipe_review_aggregates` on `c6Db`, whose approved
ratings are [3, 5]: the fetch succeeds with review count 2 and average
rating 4, and a fetch of a missing id returns none. -/
theorem getRecipe_review_aggregates_witness :
    (∃ out, getRecipe c6Db "r1" = some out ∧
      out.averageRating = 4 ∧ out.reviewCount = 2) ∧
      getRecipe c6Db "missing" = none := by
  constructor
  · obtain ⟨out, hout⟩ : ∃ out, getRecipe c6Db "r1" = some out := ⟨_, rfl⟩
    have h := (getRecipe_review_aggregates c6Db "r1").2 out hout
    refine ⟨out, hout, ?_, ?_⟩
    · have havg := h.2.2.2.2 (by decide)
      rw [havg]
      have hlist : approvedReviewsFor c6Db "r1" =
          [ { id := "v1", recipeId := "r1", userId := "u1", rating := 3, createdAt := 1 },
            { id := "v2", recipeId := "r1", userId := "u2", rating := 5, createdAt := 2 } ] := by
        decide
      rw [hlist]
      norm_num [List.map_cons, List.map_nil, List.sum_cons, List.sum_nil]
    · rw [h.2.2.1]
      decide
  · exact (getRecipe_review_aggregates c6Db "missing").1 (by decide)

/-! ### C7 -/

/-- The generate-from-ingredients loop, started at index `i`: it yields one
saved recipe per candidate, grows the recipes table by one row per
candidate, and the j-th saved recipe carries exactly the image reference
`generateRecipeImage` produced for the j-th image call. -/
theorem genLoopSpec (sub : String)
    (imageCall : Nat → Except String (Option String))
    (cands : List GeneratedRecipe) :
    ∀ (i : Nat) (db : DB),
      (generateFromIngredientsLoop sub imageCall cands i db).1.length = cands.length ∧
        (generateFromIngredientsLoop sub imageCall cands i db).2.recipes.length
          = db.recipes.length + cands.length ∧
        ∀ j (dflt : Recipe), j < cands.length →
          ((generateFromIngredientsLoop sub imageCall cands i db).1.getD j dflt).imageUrl
            = some (generateRecipeImage (imageCall (i + j))) := by
  induction cands with
  | nil =>
    intro i db
    refine ⟨rfl, by simp [generateFromIngredientsLoop], ?_⟩
    intro j dflt hj
    exact absurd hj (by simp)
  | cons g rest ih =>
    intro i db
    have hstep :
        generateFromIngredientsLoop sub imageCall (g :: rest) i db
          = ((createRecipe db (insertOfGenerated g
                (some (generateRecipeImage (imageCall i))) sub)).1 ::
              (generateFromIngredientsLoop sub imageCall rest (i + 1)
                (createRecipe db (insertOfGenerated g
                  (some (generateRecipeImage (imageCall i))) sub)).2).1,
             (generateFromIngredientsLoop sub imageCall rest (i + 1)
                (createRecipe db (insertOfGenerated g
                  (some (generateRecipeImage (imageCall i))) sub)).2).2) := rfl
    have ihh := ih (i + 1)
      (createRecipe db (insertOfGenerated g
        (some (generateRecipeImage (imageCall i))) sub)).2
    refine ⟨?_, ?_, ?_⟩
    · rw [hstep]
      simp only [List.length_cons]
      rw [ihh.1]
    · rw [hstep]
      have hcr :
          (createRecipe db (insertOfGenerated g
            (some (generateRecipeImage (imageCall i))) sub)).2.recipes.length
            = db.recipes.length + 1 := by
        unfold createRecipe
        simp
      rw [ihh.2.1, hcr]
      simp only [List.length_cons]
      omega
    · intro j dflt hj
      rw [hstep]
      cases j with
      | zero =>
        show (createRecipe db (insertOfGenerated g
          (some (generateRecipeImage (imageCall i))) sub)).1.imageUrl
            = some (generateRecipeImage (imageCall (i + 0)))
        unfold createRecipe insertOfGenerated
        simp
      | succ j =>
        have hlt : j < rest.length := by
          simpa [Nat.succ_lt_succ_iff] using hj
        have := ihh.2.2 j dflt hlt
        show ((generateFromIngredientsLoop sub imageCall rest (i + 1)
            (createRecipe db (insertOfGenerated g
              (some (generateRecipeImage (imageCall i))) sub)).2).1.getD j dflt).imageUrl
            = some (generateRecipeImage (imageCall (i + (j + 1))))
        rw [this]
        have harith : i + 1 + j = i + (j + 1) := by omega
        rw [harith]

/-- C7: `generateRecipeImage` maps every failed external call to the empty
image reference (it never propagates an error), and in the
generate-from-ingredients loop every candidate is persisted — one saved
recipe and one new row per candidate — with the j-th saved recipe carrying
the j-th image result, hence the empty reference exactly where the image
call failed.  A failed image call therefore never aborts the remaining
candidates. -/
theorem generateRecipeImage_degrades_gracefully (sub : String)
    (imageCall : Nat → Except String (Option String))
    (cands : List GeneratedRecipe) (db : DB) :
    (∀ e, generateRecipeImage (.error e) = "") ∧
      (generateFromIngredientsLoop sub imageCall cands 0 db).1.length = cands.length ∧
      (generateFromIngredientsLoop sub imageCall cands 0 db).2.recipes.length
        = db.recipes.length + cands.length ∧
      (∀ j (dflt : Recipe), j < cands.length →
        ((generateFromIngredientsLoop sub imageCall cands 0 db).1.getD j dflt).imageUrl
          = some (generateRecipeImage (imageCall j))) ∧
      (∀ j (dflt : Recipe) e, j < cands.length → imageCall j = .error e →
        ((generateFromIngredientsLoop sub imageCall cands 0 db).1.getD j dflt).imageUrl
          = some "") := by
  have h := genLoopSpec sub imageCall cands 0 db
  refine ⟨fun e => rfl, h.1, h.2.1, ?_, ?_⟩
  · intro j dflt hj
    have := h.2.2 j dflt hj
    rwa [Nat.zero_add] at this
  · intro j dflt e hj herr
    have := h.2.2 j dflt hj
    rw [Nat.zero_add, herr] at this
    exact this

/-- The spec's scenario: three candidates from ingredients [egg, flour]. -/
def c7Cands : List GeneratedRecipe :=
  [ { name := "Omelette", description := "Fluffy eggs" },
    { name := "Crepes", description := "Thin pancakes" },
    { name := "Fresh Pasta", description := "Egg noodles" } ]

/-- An external image service that fails for the second candidate only. -/
def c7ImageCall : Nat → Except String (Option String) :=
  fun i => if i == 1 then .error "image api down"
    else .ok (some ("https://img.example/" ++ toString i))

/-- C7 witness: with three candidates and the image call failing for
candidate #2, three recipes are persisted; #2 carries the empty image
reference and #1 and #3 carry the generated references. -/
theorem generateRecipeImage_degrades_gracefully_witness :
    ((generateFromIngredientsLoop "u1" c7ImageCall c7Cands 0 {}).1.map
        (fun r => r.imageUrl))
      = [some "https://img.example/0", some "", some "https://img.example/2"] ∧
      (generateFromIngredientsLoop "u1" c7ImageCall c7Cands 0 {}).2.recipes.length = 3 := by
  have h := generateRecipeImage_degrades_gracefully "u1" c7ImageCall c7Cands {}
  refine ⟨by decide, ?_⟩
  rw [h.2.2.1]
  decide

/-! ### C8 -/

/-- C8: the admin guard rejects a caller without a resolved identity with
the unauthorized signal; it rejects a caller whose identity resolves but
whose stored role is not "admin" (including a caller with no stored user at
all) with the forbidden signal; the two signals are distinct; and the
handler runs (`proceed`) exactly when the identity resolves to a stored
user whose role is "admin". -/
theorem isAdminGate_guards (db : DB) (claimsSub : Option String) :
    (resolvedIdentity claimsSub = false → isAdminGate db claimsSub = .unauthorized) ∧
      (∀ sub, claimsSub = some sub →
        resolvedIdentity claimsSub = true →
        (∀ u, getUser db sub = some u → u.role ≠ "admin") →
        isAdminGate db claimsSub = .forbidden) ∧
      (isAdminGate db claimsSub = .proceed ↔
        ∃ sub u, claimsSub = some sub ∧ resolvedIdentity claimsSub = true ∧
          getUser db sub = some u ∧ u.role = "admin") ∧
      (AdminGate.unauthorized ≠ AdminGate.forbidden ∧
        AdminGate.forbidden ≠ AdminGate.proceed ∧
        AdminGate.unauthorized ≠ AdminGate.proceed) := by
  refine ⟨?_, ?_, ?_, by decide, by decide, by decide⟩
  · intro hfalse
    cases claimsSub with
    | none => rfl
    | some sub =>
      have hempty : sub.isEmpty = true := by
        simpa [resolvedIdentity] using hfalse
      simp [isAdminGate, hempty]
  · intro sub hsub htrue hrole
    subst hsub
    have hne : sub.isEmpty = false := by
      simpa [resolvedIdentity] using htrue
    cases hu : getUser db sub with
    | none => simp [isAdminGate, hne, hu]
    | some u =>
      have hr : (u.role == "admin") = false := by
        simpa using hrole u hu
      simp [isAdminGate, hne, hu, hr]
  · constructor
    · intro hp
      cases claimsSub with
      | none => exact absurd hp (by simp [isAdminGate])
      | some sub =>
        cases hempty : sub.isEmpty with
        | true => exact absurd hp (by simp [isAdminGate, hempty])
        | false =>
          cases hu : getUser db sub with
          | none => exact absurd hp (by simp [isAdminGate, hempty, hu])
          | some u =>
            cases hr : u.role == "admin" with
            | false => exact absurd hp (by simp [isAdminGate, hempty, hu, hr])
            | true =>
              exact ⟨sub, u, rfl, by simp [resolvedIdentity, hempty], hu, by simpa using hr⟩
    · rintro ⟨sub, u, rfl, htrue, hu, hr⟩
      have hne : sub.isEmpty = false := by
        simpa [resolvedIdentity] using htrue
      simp [isAdminGate, hne, hu, hr]

/-- An admin, a plain user, and nobody else. -/
def c8Db : DB := { users := [{ id := "adm", role := "admin" }, { id := "bob" }] }

/-- C8 witness: `isAdminGate_guards` at `c8Db` — a missing identity is
unauthorized, a plain user and an unknown subject are forbidden, and the
admin proceeds. -/
theorem isAdminGate_guards_witness :
    isAdminGate c8Db none = .unauthorized ∧
      isAdminGate c8Db (some "bob") = .forbidden ∧
      isAdminGate c8Db (some "ghost") = .forbidden ∧
      isAdminGate c8Db (some "adm") = .proceed := by
  refine ⟨?_, ?_, ?_, ?_⟩
  · exact (isAdminGate_guards c8Db none).1 (by decide)
  · refine (isAdminGate_guards c8Db (some "bob")).2.1 "bob" rfl (by decide) ?_
    intro u hu
    have h2 : getUser c8Db "bob" = some ({ id := "bob" } : User) := by decide
    rw [h2] at hu
    have hu' : u = ({ id := "bob" } : User) := (Option.some.inj hu).symm
    subst hu'
    decide
  · refine (isAdminGate_guards c8Db (some "ghost")).2.1 "ghost" rfl (by decide) ?_
    intro u hu
    have h2 : getUser c8Db "ghost" = none := by decide
    rw [h2] at hu
    exact absurd hu (by simp)
  · exact (isAdminGate_guards c8Db (some "adm")).2.2.1.mpr
      ⟨"adm", { id := "adm", role := "admin" }, rfl, by decide, by decide, rfl⟩

/-! ### C9 -/

/-- C9: the review-creation handler overrides the body's `userId` and
`recipeId` with the session subject and the path id before validation, so a
created review always carries the session identity and the path's recipe
id, and two bodies that agree on every other field (rating, comment,
isApproved) produce identical outcomes whatever `userId`/`recipeId` they
supplied. -/
theorem createReview_identity_from_session (db : DB) (sub pathId : String)
    (b b2 : ReviewBody) :
    (∀ v db2, createReviewRoute db sub pathId b = (.created v, db2) →
      v.userId = sub ∧ v.recipeId = pathId) ∧
      (b.rating = b2.rating → b.comment = b2.comment → b.isApproved = b2.isApproved →
        createReviewRoute db sub pathId b = createReviewRoute db sub pathId b2) := by
  obtain ⟨brid, buid, brat, bcom, bapp⟩ := b
  obtain ⟨brid2, buid2, brat2, bcom2, bapp2⟩ := b2
  constructor
  · intro v db2 h
    cases brat with
    | none =>
      exact absurd h (by
        simp [createReviewRoute, mergeReviewBody, parseInsertReview])
    | some q =>
      by_cases hq : ratingValid q = true
      · have hv : v = (createReview db
            { recipeId := pathId, userId := sub, rating := q,
              comment := bcom.getD none, isApproved := bapp }).1 := by
          have := congrArg Prod.fst h
          simpa [createReviewRoute, mergeReviewBody, parseInsertReview, hq] using this.symm
        rw [hv]
        exact ⟨rfl, rfl⟩
      · have hqf : ratingValid q = false := by simpa using hq
        exact absurd h (by
          simp [createReviewRoute, mergeReviewBody, parseInsertReview, hqf])
  · intro h1 h2 h3
    simp only at h1 h2 h3
    subst h1
    subst h2
    subst h3
    rfl

/-- C9 witness: a body that claims to be mallory reviewing recipe "evil" is
stored as the session caller u1 reviewing the recipe r9 of the URL path,
and changes to the body's userId/recipeId fields leave the outcome
untouched — instances of `createReview_identity_from_session`. -/
theorem createReview_identity_from_session_witness :
    (createReviewRoute {} "u1" "r9"
        { userId := some "mallory", recipeId := some "evil", rating := some 5 }
      = createReviewRoute {} "u1" "r9" { rating := some 5 }) ∧
      ((createReviewRoute {} "u1" "r9"
          { userId := some "mallory", recipeId := some "evil", rating := some 5 }).1
        = .created { id := freshId 0, recipeId := "r9", userId := "u1", rating := 5 }) := by
  constructor
  · exact (createReview_identity_from_session {} "u1" "r9"
      { userId := some "mallory", recipeId := some "evil", rating := some 5 }
      { rating := some 5 }).2 rfl rfl rfl
  · decide

/-! ### C10 -/

/-- An unapproved easy recipe, the only row of `c10Db`. -/
def c10Recipe : Recipe :=
  { id := "rx", name := "Tiramisu", difficulty := some "easy", isApproved := false }

/-- A database whose single recipe is unapproved. -/
def c10Db : DB := { recipes := [c10Recipe] }

/-- C10 counterexample: the claim asserts, alongside the single-fetch
behaviour, that list and featured queries are restricted to approved
recipes.  On `c10Db` the single fetch indeed returns the unapproved recipe,
but the list query with a difficulty filter returns it too — a list query
is not restricted to approved recipes once a filter replaces the approval
condition. -/
theorem singleFetch_and_filtered_list_return_unapproved :
    ((getRecipe c10Db "rx").map (fun out => out.recipe.isApproved) = some false) ∧
      ((getRecipes c10Db 20 0 { difficulty := some "easy" }).map
          (fun rw => (rw.recipe.id, rw.recipe.isApproved)) = [("rx", false)]) := by
  constructor <;> decide

/-- C10 (amended): the single-recipe fetch never consults `isApproved`: any
existing id is returned, approved or not.  The featured query, and the list
query when no filter is supplied, return approved recipes only (a supplied
filter replaces the approval condition, see the C1/C2 theorems). -/
theorem getRecipe_no_approval_check (db : DB) (id : String) (lim off : Nat) :
    (∀ r, db.recipes.find? (fun x => x.id == id) = some r →
      ∃ out, getRecipe db id = some out ∧ out.recipe = r) ∧
      (∀ rw ∈ getFeaturedRecipes db, rw.recipe.isApproved = true) ∧
      (∀ rw ∈ getRecipes db lim off {}, rw.recipe.isApproved = true) := by
  refine ⟨?_, ?_, ?_⟩
  · intro r hr
    have hout : getRecipe db id = some
        { recipe := r
          reviews := (List.insertionSort reviewNewerEq (approvedReviewsFor db id)).map
            (fun v => ⟨v, getUser db v.userId⟩)
          averageRating :=
            if ((approvedReviewsFor db id).map (fun v => v.rating)).isEmpty then 0
            else ((approvedReviewsFor db id).map (fun v => v.rating)).sum /
              ((((approvedReviewsFor db id).map (fun v => v.rating)).length : Nat) : Rat)
          reviewCount := ((approvedReviewsFor db id).map (fun v => v.rating)).length } := by
      unfold getRecipe
      rw [hr]
    exact ⟨_, hout, rfl⟩
  · intro rw hrw
    have hdef : getFeaturedRecipes db
        = ((List.insertionSort recipeNewerEq
            (db.recipes.filter (fun x => x.isFeatured && x.isApproved))).take 10).map
              (joinOwner db) := rfl
    rw [hdef] at hrw
    obtain ⟨r, hr, hmap⟩ := List.mem_map.mp hrw
    have h1 : r ∈ List.insertionSort recipeNewerEq
        (db.recipes.filter (fun x => x.isFeatured && x.isApproved)) :=
      List.take_subset 10 _ hr
    have h2 : r ∈ db.recipes.filter (fun x => x.isFeatured && x.isApproved) :=
      (List.perm_insertionSort recipeNewerEq _).mem_iff.mp h1
    have h3 := (List.mem_filter.mp h2).2
    have h4 : r.isApproved = true := ((Bool.and_eq_true _ _).mp h3).2
    rw [← hmap]
    exact h4
  · intro rw hrw
    have hdef : getRecipes db lim off {}
        = (((List.insertionSort recipeNewerEq
            (db.recipes.filter (getRecipesWhere {}))).drop off).take lim).map
              (joinOwner db) := rfl
    rw [hdef] at hrw
    obtain ⟨r, hr, hmap⟩ := List.mem_map.mp hrw
    have h1 : r ∈ (List.insertionSort recipeNewerEq
        (db.recipes.filter (getRecipesWhere {}))).drop off :=
      List.take_subset lim _ hr
    have h1' : r ∈ List.insertionSort recipeNewerEq
        (db.recipes.filter (getRecipesWhere {})) :=
      List.drop_subset off _ h1
    have h2 : r ∈ db.recipes.filter (getRecipesWhere {}) :=
      (List.perm_insertionSort recipeNewerEq _).mem_iff.mp h1'
    have h3 := (List.mem_filter.mp h2).2
    have h4 : r.isApproved = true := by
      have hwhere : getRecipesWhere {} = fun x => x.isApproved := rfl
      rw [hwhere] at h3
      exact h3
    rw [← hmap]
    exact h4

/-- C10 witness: `getRecipe_no_approval_check` at `c10Db` — the single
fetch returns the unapproved recipe `rx`. -/
theorem getRecipe_no_approval_check_witness :
    ∃ out, getRecipe c10Db "rx" = some out ∧ out.recipe = c10Recipe ∧
      out.recipe.isApproved = false := by
  obtain ⟨out, h1, h2⟩ :=
    (getRecipe_no_approval_check c10Db "rx" 20 0).1 c10Recipe (by decide)
  refine ⟨out, h1, h2, ?_⟩
  rw [h2]
  decide

end ChefFest
